import Mathlib

/-!
Verification of the video-generation core of the active_particles_in_3D
repository.  The Python sources (src/generate_mp4.py, src/generate_video.py,
src/scripts/generate_mp4.py) are shallowly embedded below: float64 values are
idealised as rationals, numpy arrays as lists, the binary byte stream at
scalar-item granularity (one list entry per int32 or float64 slot, matching
np.fromfile, which only ever delivers whole items), pandas DataFrames as lists
of rows, and Python exceptions as Except error values tagged with the site
that raises them.
-/

deriving instance DecidableEq for Except

namespace ActiveParticles

/-- One row of the pandas DataFrame built by the readers: columns
Particles, x-position, y-position, z-position, ex/ey/ez-orientation, time. -/
structure Row where
  particle : Nat
  x : ℚ
  y : ℚ
  z : ℚ
  ex : ℚ
  ey : ℚ
  ez : ℚ
  time : ℚ
deriving DecidableEq, Repr

/-- Spec-side view (spec section 3): one FrameRecord of a Trajectory. -/
structure FrameRec where
  timestep : ℚ
  xs : List ℚ
  ys : List ℚ
  zs : List ℚ
  exs : List ℚ
  eys : List ℚ
  ezs : List ℚ
deriving DecidableEq, Repr

/-- Spec-side view (spec section 3): a Trajectory, frames kept in file order. -/
structure Traj where
  particle_count : Nat
  frames : List FrameRec
deriving DecidableEq, Repr

/-- The flattened DataFrame the readers build from a trajectory: for each frame,
one row per particle id in range(particle_count), the loop shape of
read_binary_simulation in src/generate_mp4.py lines 76-97. -/
def trajToDf (tr : Traj) : List Row :=
  (tr.frames.map (fun fr =>
    (List.range tr.particle_count).map (fun pid =>
      ⟨pid, fr.xs.getD pid 0, fr.ys.getD pid 0, fr.zs.getD pid 0,
       fr.exs.getD pid 0, fr.eys.getD pid 0, fr.ezs.getD pid 0, fr.timestep⟩))).flatten

def pdUniqueGo (seen : List ℚ) : List ℚ → List ℚ
  | [] => []
  | a :: t => if a ∈ seen then pdUniqueGo seen t else a :: pdUniqueGo (a :: seen) t

/-- pandas Series.unique: distinct values in order of first occurrence. -/
def pdUnique (l : List ℚ) : List ℚ := pdUniqueGo [] l

/-- pandas Series.max; none models the NaN produced on an empty series. -/
def pdMax (l : List ℚ) : Option ℚ :=
  match l with
  | [] => none
  | a :: t => some (t.foldl max a)

/-- pandas Series.min; none models the NaN produced on an empty series. -/
def pdMin (l : List ℚ) : Option ℚ :=
  match l with
  | [] => none
  | a :: t => some (t.foldl min a)

/-- The KeyError a pandas DataFrame raises on accessing a column that is not
in its column index. -/
inductive KeyError where
  | keyError
deriving DecidableEq, Repr

/-- A pandas DataFrame as the readers produce it: the row list plus whether
the column index is populated.  pd.DataFrame on an empty list of row dicts
has an empty column index, so every column access raises KeyError; a
DataFrame read by pd.read_csv keeps the header columns even with zero rows. -/
structure PyDataFrame where
  cols : Bool
  rows : List Row
deriving DecidableEq, Repr

/-- pd.DataFrame(data) on the list of row dicts built by
read_binary_simulation: columns exist exactly when at least one row does. -/
def pd_DataFrame (rows : List Row) : PyDataFrame :=
  ⟨!rows.isEmpty, rows⟩

/-- df[column]: the projected column when the column index is populated,
KeyError otherwise. -/
def dfColumn (df : PyDataFrame) (f : Row → ℚ) : Except KeyError (List ℚ) :=
  if df.cols then Except.ok (df.rows.map f) else Except.error KeyError.keyError

/-- timesteps = sorted(df[time].unique()), as in generate_standard_mp4
(src/generate_mp4.py line 237) and generate_tracking_mp4 (line 280); the
column access raises KeyError on the column-less empty DataFrame. -/
def videoTimesteps (df : PyDataFrame) : Except KeyError (List ℚ) :=
  match dfColumn df (fun r => r.time) with
  | Except.error e => Except.error e
  | Except.ok col => Except.ok (List.insertionSort (fun a b => a ≤ b) (pdUnique col))

/-- The frame artifacts: enumerate(timesteps) pairs a dense zero-based index
with each distinct timestep; the artifact file for (idx, t) is
frame_{idx:04d}.png (src/generate_mp4.py lines 246-249). -/
def frameArtifacts (df : PyDataFrame) : Except KeyError (List (Nat × ℚ)) :=
  match videoTimesteps df with
  | Except.error e => Except.error e
  | Except.ok ts => Except.ok ts.enum

/-! ## TrajectoryReader: binary path (read_binary_simulation) -/

/-- Which fromfile destination an out-of-bounds access belongs to. -/
inductive ArrKind where
  | header_particles
  | header_frames
  | timestep
  | x
  | y
  | z
  | ex
  | ey
  | ez
deriving DecidableEq, Repr

/-- The IndexError raised when indexing into a short numpy array, tagged with
the frame being decoded, the array, and the offending index (the Python
traceback pins down the same access site). -/
inductive ReadErr where
  | truncated (frame : Nat) (arr : ArrKind) (idx : Nat)
deriving DecidableEq, Repr

/-- arr[i] on a numpy array returned by fromfile; np.fromfile returns only the
items actually present, so a truncated stream yields a short array and the
access raises IndexError. -/
def getItem (frame : Nat) (arr : ArrKind) (l : List ℚ) (i : Nat) : Except ReadErr ℚ :=
  match l.get? i with
  | some v => Except.ok v
  | none => Except.error (ReadErr.truncated frame arr i)

/-- The inner loop of read_binary_simulation (lines 85-97): for particle_id in
range(num_particles), append the row built from the six array accesses. -/
def rowsFor (f : Nat) (t : ℚ) (xs ys zs exs eys ezs : List ℚ) :
    List Nat → Except ReadErr (List Row)
  | [] => Except.ok []
  | pid :: rest =>
    match getItem f ArrKind.x xs pid with
    | Except.error e => Except.error e
    | Except.ok xv =>
      match getItem f ArrKind.y ys pid with
      | Except.error e => Except.error e
      | Except.ok yv =>
        match getItem f ArrKind.z zs pid with
        | Except.error e => Except.error e
        | Except.ok zv =>
          match getItem f ArrKind.ex exs pid with
          | Except.error e => Except.error e
          | Except.ok exv =>
            match getItem f ArrKind.ey eys pid with
            | Except.error e => Except.error e
            | Except.ok eyv =>
              match getItem f ArrKind.ez ezs pid with
              | Except.error e => Except.error e
              | Except.ok ezv =>
                match rowsFor f t xs ys zs exs eys ezs rest with
                | Except.error e => Except.error e
                | Except.ok rs => Except.ok (⟨pid, xv, yv, zv, exv, eyv, ezv, t⟩ :: rs)

/-- The frame loop of read_binary_simulation (lines 76-97): per frame one int32
timestep then six float64 arrays of length num_particles, read with np.fromfile
(take) which silently under-delivers on a short stream. -/
def readFrames (np : Nat) : Nat → Nat → List ℚ → Except ReadErr (List Row)
  | _, 0, _ => Except.ok []
  | f, Nat.succ nf, s =>
    match getItem f ArrKind.timestep s 0 with
    | Except.error e => Except.error e
    | Except.ok t =>
      let s1 := s.drop 1
      let xs := s1.take np
      let s2 := s1.drop np
      let ys := s2.take np
      let s3 := s2.drop np
      let zs := s3.take np
      let s4 := s3.drop np
      let exs := s4.take np
      let s5 := s4.drop np
      let eys := s5.take np
      let s6 := s5.drop np
      let ezs := s6.take np
      let s7 := s6.drop np
      match rowsFor f t xs ys zs exs eys ezs (List.range np) with
      | Except.error e => Except.error e
      | Except.ok rows =>
        match readFrames np (f + 1) nf s7 with
        | Except.error e => Except.error e
        | Except.ok rest => Except.ok (rows ++ rest)

/-- How the int32 read from the header is used as a Python count
(range(n) is empty for n below one). -/
def toCount (q : ℚ) : Nat := q.floor.toNat

/-- read_binary_simulation from src/generate_mp4.py lines 58-99: int32
particle and frame counts, then frame_count frame records, flattened into
DataFrame rows.  The stream is a list of scalar items. -/
def read_binary_simulation (s : List ℚ) : Except ReadErr (List Row) :=
  match getItem 0 ArrKind.header_particles s 0 with
  | Except.error e => Except.error e
  | Except.ok npv =>
    match getItem 0 ArrKind.header_frames s 1 with
    | Except.error e => Except.error e
    | Except.ok nfv => readFrames (toCount npv) 0 (toCount nfv) (s.drop 2)

/-! ## TrajectoryReader: CSV fallback (read_csv_simulation) -/

/-- Digits-to-number accumulation for a matched digit run. -/
def natOfDigits (cs : List Char) : Nat :=
  cs.foldl (fun n c => 10 * n + (c.toNat - 48)) 0

/-- The regex extraction str.extract((\d+)) of read_csv_simulation
(src/generate_mp4.py line 108): the first maximal run of digits in the label,
or none when the label contains no digit (pandas yields NaN there). -/
def firstDigitRun (cs : List Char) : Option Nat :=
  match cs.dropWhile (fun c => !c.isDigit) with
  | [] => none
  | ds => some (natOfDigits (ds.takeWhile Char.isDigit))

/-- The whole-column conversion .str.extract((\d+)).astype(int): every label
must have matched, otherwise astype(int) raises on the NaN (one error for the
column, the offending row is not named). -/
def extract_particles : List (List Char) → Option (List Nat)
  | [] => some []
  | s :: rest =>
    match firstDigitRun s, extract_particles rest with
    | some n, some t => some (n :: t)
    | _, _ => none

/-- Modelled from the spec: claim C7 says "the numeric suffix must be
extracted" — the trailing maximal run of digits of the label.  Used only to
compare the claim wording against the code. -/
def numericSuffix (cs : List Char) : Option Nat :=
  match (cs.reverse.takeWhile Char.isDigit).reverse with
  | [] => none
  | ds => some (natOfDigits ds)

/-! ## DimensionEstimator (read_parameters and the fallback in main) -/

/-- The parameter source: absent file, or the first line already split on tab.
Each field is abstracted to the outcome of float() on it: some value when the
text parses as a float, none when float() raises ValueError. -/
inductive ParamSource where
  | absent
  | present (fields : List (Option ℚ))

/-- read_parameters (src/generate_mp4.py lines 43-55): take fields 6 and 7 of
the tab-split first line as radius and height; the bare except catches the
missing file (IOError), a short line (IndexError) and unparseable text
(ValueError) alike and returns None. -/
def read_parameters : ParamSource → Option (ℚ × ℚ)
  | ParamSource.absent => none
  | ParamSource.present fields =>
    match fields.get? 6 with
    | none => none
    | some f6 =>
      match f6 with
      | none => none
      | some w =>
        match fields.get? 7 with
        | none => none
        | some f7 =>
          match f7 with
          | none => none
          | some h => some (w, h)

/-- The geometry computed by main; none fields model the NaN that pandas
min/max produce on an empty DataFrame. -/
structure GeometryO where
  radius : Option ℚ
  height_min : Option ℚ
  height_max : Option ℚ
deriving DecidableEq, Repr

/-- Python max on two floats (NaN-propagating in the only case main can hit:
both arguments NaN on an empty DataFrame). -/
def optMax (a b : Option ℚ) : Option ℚ :=
  match a, b with
  | some av, some bv => some (max av bv)
  | _, _ => none

/-- The radius branch of main in src/generate_mp4.py lines 356-362: from the
parameter file when it parses, else 1.1 times the largest absolute x or y over
the whole DataFrame; the x/y column accesses at line 362 raise KeyError on
the column-less empty DataFrame (inner none is the NaN of empty column max,
reachable only through a zero-row DataFrame that kept its columns). -/
def wall_mp4 (src : ParamSource) (df : PyDataFrame) : Except KeyError (Option ℚ) :=
  match read_parameters src with
  | some wh => Except.ok (some wh.1)
  | none =>
    match dfColumn df (fun r => |r.x|) with
    | Except.error e => Except.error e
    | Except.ok xs =>
      match dfColumn df (fun r => |r.y|) with
      | Except.error e => Except.error e
      | Except.ok ys =>
        match optMax (pdMax xs) (pdMax ys) with
        | some m => Except.ok (some (m * (11 / 10)))
        | none => Except.ok none

/-- The geometry block of main in src/generate_mp4.py lines 356-366: first
the radius (line 362 runs only when the parameter file did not parse), then
the z-column accesses of lines 365-366, which also raise KeyError on the
column-less empty DataFrame; on a zero-row DataFrame that kept its columns
the bounds are the NaN of empty pandas min/max. -/
def estimate_mp4 (src : ParamSource) (df : PyDataFrame) : Except KeyError GeometryO :=
  match wall_mp4 src df with
  | Except.error e => Except.error e
  | Except.ok wall =>
    match dfColumn df (fun r => r.z) with
    | Except.error e => Except.error e
    | Except.ok zs => Except.ok ⟨wall, pdMin zs, pdMax zs⟩

/-- The square of the data-derived radius of main in src/generate_video.py
lines 427-430: Wall = 1.1 * sqrt(max(x^2 + y^2)).  The square avoids leaving
the rationals; the sign of Wall is nonnegative, so the square determines it. -/
def wallVideoSq (df : List Row) : Option ℚ :=
  match pdMax (df.map (fun r => r.x ^ 2 + r.y ^ 2)) with
  | some m => some (m * (11 / 10) ^ 2)
  | none => none

/-! ## ParticleSampler (inline in generate_tracking_mp4) -/

/-- The ValueError np.random.choice raises when asked for more without-
replacement draws than the population holds. -/
inductive SampleErr where
  | valueError
deriving DecidableEq, Repr

/-- num_tracked = max(1, int(len(all_particles) * TRACK_PERCENTAGE))
(src/generate_mp4.py line 284); int() truncates the nonnegative product,
i.e. takes its floor. -/
def numTracked (n : Nat) (fraction : ℚ) : Nat :=
  max 1 (fraction * n).floor.toNat

/-- np.random.choice(population, size, replace=False): the randomness is
modelled by a caller-supplied shuffled copy of the population (theorems
hypothesise it is a permutation of it); the draw is its first size elements,
and asking for more than the population holds raises ValueError. -/
def np_random_choice (population : List Int) (size : Nat) (shuffled : List Int) :
    Except SampleErr (List Int) :=
  if size ≤ population.length then Except.ok (shuffled.take size)
  else Except.error SampleErr.valueError

/-- The sampling step of generate_tracking_mp4 (src/generate_mp4.py lines
283-285): all_particles is already distinct (DataFrame unique). -/
def generate_tracking_selection (allParticles : List Int) (fraction : ℚ)
    (shuffled : List Int) : Except SampleErr (List Int) :=
  np_random_choice allParticles (numTracked allParticles.length fraction) shuffled

/-! ## Tracking colors (inline in generate_tracking_mp4) -/

/-- A CSS color hsl(hue, sat, light); the emitted f-string is determined by
these three numbers, so two color strings are equal iff these fields agree.
The hue is rational so that the exact value claimed by the spec can be
compared against the truncated value the code produces. -/
structure Color where
  hue : ℚ
  sat : Nat
  light : Nat
deriving DecidableEq, Repr

/-- int(360 * i / num_tracked): Python int() truncation of the nonnegative
quotient, i.e. natural-number division. -/
def hueOf (n i : Nat) : Nat := 360 * i / n

/-- colors = [hsl(int(360 * i / num_tracked), 70%, 50%) for i in
range(num_tracked)] (src/generate_mp4.py lines 291-293). -/
def trackingColors (n : Nat) : List Color :=
  (List.range n).map (fun i => ⟨(hueOf n i : Nat), 70, 50⟩)

/-- particle_colors = dict(zip(tracked_particles, colors))
(src/generate_mp4.py line 294). -/
def particle_colors (tracked : List Int) : List (Int × Color) :=
  tracked.zip (trackingColors tracked.length)

/-- Python dict lookup on the zipped pairs: with duplicate keys the later
binding wins, hence the search runs over the reversed association list. -/
def dictGet (pairs : List (Int × Color)) (k : Int) : Option Color :=
  (pairs.reverse.find? (fun p => p.1 == k)).map Prod.snd

/-! ## VideoAssembler and main (subprocess.run, cleanup, exit codes) -/

/-- Outcome of one external encoder invocation: its exit code and captured
diagnostic output (stderr), as a character list. -/
structure EncoderRun where
  exitCode : Nat
  diag : List Char
deriving DecidableEq, Repr

/-- The exception subprocess.run(check=True, capture_output=True) raises on a
non-zero exit, carrying the captured diagnostic output. -/
structure CalledProcessError where
  exitCode : Nat
  diag : List Char
deriving DecidableEq, Repr

/-- subprocess.run(cmd, check=True, capture_output=True)
(src/generate_mp4.py line 271). -/
def subprocess_run_check (r : EncoderRun) : Except CalledProcessError Unit :=
  if r.exitCode = 0 then Except.ok ()
  else Except.error ⟨r.exitCode, r.diag⟩

/-- The encode-then-cleanup tail of generate_standard_mp4 / generate_tracking_mp4
(src/generate_mp4.py lines 271-275 and 335-339): on success shutil.rmtree
deletes the temp frame directory (second component becomes none); on failure
the exception propagates before the rmtree line, leaving the directory and
its frame files in place. -/
def generate_video_encode (r : EncoderRun) (frames : List (List Char)) :
    Except CalledProcessError Unit × Option (List (List Char)) :=
  match subprocess_run_check r with
  | Except.ok _ => (Except.ok (), none)
  | Except.error e => (Except.error e, some frames)

/-- Observable pipeline events of main, in execution order. -/
inductive PyEv where
  | depCheck
  | readData
  | render (video : Nat)
  | encode (video : Nat)
deriving DecidableEq, Repr

/-- check_dependencies (src/generate_mp4.py lines 123-135): kaleido importable
and ffmpeg on the PATH. -/
def check_dependencies (kaleido ffmpeg : Bool) : Bool :=
  kaleido && ffmpeg

/-- main of src/generate_mp4.py lines 342-388: dependency check first
(returning 1 before any data is read), then read, geometry, the standard video
and the tracking video; a CalledProcessError from either encoder invocation is
caught and turned into return value 1; otherwise 0.  The event list records
what ran. -/
def main_mp4 (kaleido ffmpeg : Bool) (std trk : EncoderRun) : Nat × List PyEv :=
  if check_dependencies kaleido ffmpeg = false then (1, [PyEv.depCheck])
  else
    match subprocess_run_check std with
    | Except.error _ =>
      (1, [PyEv.depCheck, PyEv.readData, PyEv.render 0, PyEv.encode 0])
    | Except.ok _ =>
      match subprocess_run_check trk with
      | Except.error _ =>
        (1, [PyEv.depCheck, PyEv.readData, PyEv.render 0, PyEv.encode 0,
             PyEv.render 1, PyEv.encode 1])
      | Except.ok _ =>
        (0, [PyEv.depCheck, PyEv.readData, PyEv.render 0, PyEv.encode 0,
             PyEv.render 1, PyEv.encode 1])

/-- src/generate_mp4.py line 392: exit(main()) makes the return value the
process exit code. -/
def src_process_exit (kaleido ffmpeg : Bool) (std trk : EncoderRun) : Nat :=
  (main_mp4 kaleido ffmpeg std trk).1

/-- src/scripts/generate_mp4.py line 508: the module calls main() WITHOUT
exit(...); the return value is discarded and CPython exits 0 whenever main
returns normally (all its failure paths return 1 rather than raise). -/
def scripts_process_exit (kaleido ffmpeg : Bool) (std trk : EncoderRun) : Nat :=
  let _discarded := main_mp4 kaleido ffmpeg std trk
  0

/-! ## Helper lemmas -/

theorem rat_floor_eq_int_floor (q : ℚ) : q.floor = ⌊q⌋ := rfl

/-! ## Claim theorems -/

/-- Claim C3: for every VideoAssembler run, an encoder exit code of 0 deletes
the whole frame-artifacts directory and succeeds, while a non-zero exit
surfaces the captured diagnostic output as the failure and leaves the
directory with all its frame files in place: cleanup happens on the success
path only. -/
theorem c3_cleanup_on_success_only :
    ∀ (r : EncoderRun) (frames : List (List Char)),
      (r.exitCode = 0 → generate_video_encode r frames = (Except.ok (), none)) ∧
      (r.exitCode ≠ 0 →
        generate_video_encode r frames =
          (Except.error ⟨r.exitCode, r.diag⟩, some frames)) := by
  intro r frames
  constructor
  · intro h
    simp [generate_video_encode, subprocess_run_check, h]
  · intro h
    simp [generate_video_encode, subprocess_run_check, h]

/-- Witness for C3 at concrete encoder outcomes. -/
theorem c3_cleanup_on_success_only_witness :
    generate_video_encode ⟨0, []⟩ [['f']] = (Except.ok (), none) ∧
    generate_video_encode ⟨1, ['b']⟩ [['f']] =
      (Except.error ⟨1, ['b']⟩, some [['f']]) :=
  ⟨(c3_cleanup_on_success_only ⟨0, []⟩ [['f']]).1 rfl,
   (c3_cleanup_on_success_only ⟨1, ['b']⟩ [['f']]).2 (by decide)⟩

/-- Claim C8: in src/generate_mp4.py the process exit code is 0 exactly when
both requested videos encode successfully and 1 on a pre-flight dependency
failure or any encoding failure, with the dependency check reported before
any trajectory reading or rendering; but src/scripts/generate_mp4.py calls
main() without exit(...), so that process exits 0 even when the dependency
check fails — the code slip the claim exposes. -/
theorem c8_exit_codes :
    (∀ (k f : Bool) (std trk : EncoderRun),
        src_process_exit k f std trk = 0 ↔
          (k = true ∧ f = true ∧ std.exitCode = 0 ∧ trk.exitCode = 0)) ∧
    (∀ (k f : Bool) (std trk : EncoderRun),
        check_dependencies k f = false →
          (main_mp4 k f std trk).2 = [PyEv.depCheck]) ∧
    (∀ (k f : Bool) (std trk : EncoderRun),
        ((main_mp4 k f std trk).2).head? = some PyEv.depCheck) ∧
    scripts_process_exit true false ⟨0, []⟩ ⟨0, []⟩ = 0 ∧
    src_process_exit true false ⟨0, []⟩ ⟨0, []⟩ = 1 := by
  refine ⟨?_, ?_, ?_, rfl, rfl⟩
  · intro k f std trk
    cases k <;> cases f <;>
      simp [src_process_exit, main_mp4, check_dependencies, subprocess_run_check] <;>
      by_cases h1 : std.exitCode = 0 <;> by_cases h2 : trk.exitCode = 0 <;>
      simp [h1, h2]
  · intro k f std trk h
    simp [main_mp4, h]
  · intro k f std trk
    by_cases h : check_dependencies k f = false
    · simp [main_mp4, h]
    · simp only [main_mp4, h, if_false]
      cases subprocess_run_check std <;> simp <;>
        cases subprocess_run_check trk <;> simp

/-- Witness for C8 applying the theorem at a concrete failing environment. -/
theorem c8_exit_codes_witness :
    (main_mp4 true false ⟨0, []⟩ ⟨0, []⟩).2 = [PyEv.depCheck] :=
  c8_exit_codes.2.1 true false ⟨0, []⟩ ⟨0, []⟩ (by decide)

theorem hueOf_succ_ge (n i : Nat) (hn : 1 ≤ n) (h360 : n ≤ 360) :
    hueOf n i + 1 ≤ hueOf n (i + 1) := by
  have step : (360 * i + n) / n = 360 * i / n + 1 :=
    Nat.add_div_right _ (by omega)
  have mono : (360 * i + n) / n ≤ (360 * i + 360) / n :=
    Nat.div_le_div_right (by omega)
  have : 360 * (i + 1) = 360 * i + 360 := by ring
  simp only [hueOf, this]
  omega

theorem hueOf_strictMono (n i j : Nat) (hn : 1 ≤ n) (h360 : n ≤ 360) (hij : i < j) :
    hueOf n i < hueOf n j := by
  have h1 : hueOf n i + 1 ≤ hueOf n (i + 1) := hueOf_succ_ge n i hn h360
  have h2 : hueOf n (i + 1) ≤ hueOf n j :=
    Nat.div_le_div_right (Nat.mul_le_mul_left 360 (by omega))
  omega

theorem hueOf_lt_360 (n i : Nat) (_hn : 1 ≤ n) (hi : i < n) : hueOf n i < 360 := by
  have : 360 * i < 360 * n := by omega
  exact Nat.div_lt_of_lt_mul (by omega)

/-- Claim C10: for every tracked count n of at least 1, the n color values
produced by hue int(360 * i / n) at saturation 70 and lightness 50 are
pairwise distinct exactly when n is at most 360; the truncated hues are
strictly increasing in i for such n, while larger n forces a repeated color. -/
theorem c10_color_distinctness :
    ∀ n : Nat, 1 ≤ n →
      (((trackingColors n).Nodup ↔ n ≤ 360) ∧
       (n ≤ 360 → ∀ i j : Nat, i < j → j < n → hueOf n i < hueOf n j)) := by
  intro n hn
  constructor
  · constructor
    · intro hnd
      have hinj := List.inj_on_of_nodup_map (f := fun i => (⟨(hueOf n i : Nat), 70, 50⟩ : Color))
        (l := List.range n) hnd
      have hcard : (Finset.range n).card ≤ (Finset.range 360).card := by
        apply Finset.card_le_card_of_injOn (fun i => hueOf n i)
        · intro a ha
          rw [Finset.mem_range] at ha ⊢
          exact hueOf_lt_360 n a hn ha
        · intro a ha b hb heq
          rw [Finset.mem_coe, Finset.mem_range] at ha hb
          refine hinj (List.mem_range.mpr ha) (List.mem_range.mpr hb) ?_
          exact congrArg (fun h : ℚ => (⟨h, 70, 50⟩ : Color)) (by exact_mod_cast heq)
      simpa using hcard
    · intro h360
      apply List.Nodup.map_on _ (List.nodup_range n)
      intro a ha b hb heq
      rw [List.mem_range] at ha hb
      simp only [Color.mk.injEq] at heq
      have hab : hueOf n a = hueOf n b := by exact_mod_cast heq.1
      by_contra hne
      rcases Nat.lt_or_ge a b with hlt | hge
      · exact absurd hab (Nat.ne_of_lt (hueOf_strictMono n a b hn h360 hlt))
      · have hlt : b < a := by omega
        exact absurd hab.symm (Nat.ne_of_lt (hueOf_strictMono n b a hn h360 hlt))
  · intro h360 i j hij hj
    exact hueOf_strictMono n i j hn h360 hij

/-- Witness for C10 at a concrete tracked count. -/
theorem c10_color_distinctness_witness :
    ((trackingColors 3).Nodup ↔ 3 ≤ 360) ∧
    (3 ≤ 360 → ∀ i j : Nat, i < j → j < 3 → hueOf 3 i < hueOf 3 j) :=
  c10_color_distinctness 3 (by decide)

/-- Claim C4 counterexample: over the empty population (n = 0, fraction 1/2
in (0,1]) the claimed selection of max(1, floor(f times n)) = 1 identifiers is
impossible and np.random.choice raises ValueError instead of selecting. -/
theorem c4_counterexample :
    generate_tracking_selection [] (1 / 2) [] = Except.error SampleErr.valueError := by
  simp only [generate_tracking_selection, numTracked, np_random_choice, List.length_nil,
    rat_floor_eq_int_floor]
  norm_num

/-- Claim C4 (amended to nonempty populations): for every nonempty population
of distinct identifiers and fraction f in (0,1], the sampler draws exactly
max(1, floor(f times n)) identifiers, all from the population, without
duplicates; on the empty population it raises instead. -/
theorem c4_sample_count :
    ∀ (pop shuffled : List Int) (f : ℚ),
      pop ≠ [] → pop.Nodup → 0 < f → f ≤ 1 → shuffled.Perm pop →
      ∃ picks, generate_tracking_selection pop f shuffled = Except.ok picks ∧
        picks.length = max 1 (f * (pop.length : ℚ)).floor.toNat ∧
        picks.Nodup ∧ ∀ p ∈ picks, p ∈ pop := by
  intro pop shuffled f hne hnd hf0 hf1 hperm
  have hlen1 : 1 ≤ pop.length := by
    have := List.length_pos.mpr hne
    omega
  have hkn : numTracked pop.length f ≤ pop.length := by
    have hmul : f * (pop.length : ℚ) ≤ (pop.length : ℚ) := by
      calc f * (pop.length : ℚ) ≤ 1 * (pop.length : ℚ) :=
            mul_le_mul_of_nonneg_right hf1 (by positivity)
        _ = (pop.length : ℚ) := one_mul _
    have hfl : (f * (pop.length : ℚ)).floor ≤ (pop.length : ℤ) := by
      rw [rat_floor_eq_int_floor]
      calc ⌊f * (pop.length : ℚ)⌋ ≤ ⌊((pop.length : ℤ) : ℚ)⌋ := by
            apply Int.floor_le_floor
            exact_mod_cast hmul
        _ = (pop.length : ℤ) := Int.floor_intCast _
    have : (f * (pop.length : ℚ)).floor.toNat ≤ pop.length := by
      omega
    simp only [numTracked]
    omega
  refine ⟨shuffled.take (numTracked pop.length f), ?_, ?_, ?_, ?_⟩
  · simp [generate_tracking_selection, np_random_choice, hkn]
  · have hsl : shuffled.length = pop.length := hperm.length_eq
    rw [List.length_take, hsl, Nat.min_eq_left hkn]
    rfl
  · exact (List.take_sublist _ _).nodup ((hperm.nodup_iff).mpr hnd)
  · intro p hp
    exact (hperm.mem_iff).mp (List.take_subset _ _ hp)

/-- Witness for C4: fraction 1/100 over 10000 distinct identifiers yields
exactly 100 picks, and over 3 identifiers (floor 0) exactly 1 pick. -/
theorem c4_sample_count_witness :
    (∃ picks, generate_tracking_selection ((List.range 10000).map Int.ofNat)
        (1 / 100) ((List.range 10000).map Int.ofNat) = Except.ok picks ∧
      picks.length = 100) ∧
    (∃ picks, generate_tracking_selection [0, 1, 2] (1 / 100) [0, 1, 2] =
        Except.ok picks ∧ picks.length = 1) := by
  constructor
  · have hnd : ((List.range 10000).map Int.ofNat).Nodup :=
      (List.nodup_range 10000).map (fun a b h => Int.ofNat.inj h)
    have hne : ((List.range 10000).map Int.ofNat) ≠ [] := by
      apply List.ne_nil_of_length_pos
      simp
    obtain ⟨picks, hok, hlen, -, -⟩ :=
      c4_sample_count _ _ (1 / 100) hne hnd (by norm_num) (by norm_num) (List.Perm.refl _)
    refine ⟨picks, hok, ?_⟩
    rw [hlen]
    norm_num [rat_floor_eq_int_floor]
    decide
  · obtain ⟨picks, hok, hlen, -, -⟩ :=
      c4_sample_count [0, 1, 2] [0, 1, 2] (1 / 100) (by decide) (by decide)
        (by norm_num) (by norm_num) (List.Perm.refl _)
    refine ⟨picks, hok, ?_⟩
    rw [hlen]
    norm_num [rat_floor_eq_int_floor]

theorem dictGet_zip (keys : List Int) :
    ∀ (vals : List Color) (i : Nat) (hnd : keys.Nodup)
      (hlen : keys.length = vals.length) (hi : i < keys.length),
      dictGet (keys.zip vals) (keys.get ⟨i, hi⟩) = vals.get? i := by
  induction keys with
  | nil =>
    intro vals i hnd hlen hi
    exact absurd hi (by simp)
  | cons a ks ih =>
    intro vals i hnd hlen hi
    match vals with
    | [] => exact absurd hlen (by simp)
    | c :: cs =>
      have hnotin : a ∉ ks := (List.nodup_cons.mp hnd).1
      have hndk : ks.Nodup := (List.nodup_cons.mp hnd).2
      have hlen2 : ks.length = cs.length := by
        simpa using hlen
      match i with
      | 0 =>
        have hleft : ((ks.zip cs).reverse).find? (fun p => p.1 == a) = none := by
          rw [List.find?_eq_none]
          intro p hp
          have hmem : p.1 ∈ ks := (List.of_mem_zip (List.mem_reverse.mp hp)).1
          have : p.1 ≠ a := fun h => hnotin (h ▸ hmem)
          simp [this]
        simp [dictGet, List.find?_append, hleft]
      | Nat.succ j =>
        have hj : j < ks.length := by
          simpa using hi
        have hkey : (a :: ks).get ⟨j + 1, hi⟩ = ks.get ⟨j, hj⟩ := rfl
        have ihj := ih cs j hndk hlen2 hj
        rw [hkey]
        simp only [dictGet] at ihj ⊢
        rw [List.zip_cons_cons, List.reverse_cons, List.find?_append]
        cases hF : ((ks.zip cs).reverse).find? (fun p => p.1 == ks.get ⟨j, hj⟩) with
        | none =>
          rw [hF] at ihj
          have : cs.get? j = some (cs.get ⟨j, by omega⟩) := by
            exact List.get?_eq_get _
          rw [this] at ihj
          simp at ihj
        | some pr =>
          rw [hF] at ihj
          simp only [Option.or_some]
          exact ihj

/-- Claim C6 counterexample: with a tracked count of 7, the identifier at
ordinal position 1 of the draw receives the color with truncated hue
int(360 / 7) = 51, not the claimed exact hue 360 / 7 degrees. -/
theorem c6_counterexample :
    dictGet (particle_colors [0, 1, 2, 3, 4, 5, 6]) 1 = some ⟨51, 70, 50⟩ ∧
    (51 : ℚ) ≠ 360 / 7 := by
  constructor
  · decide
  · norm_num

/-- Claim C6 (amended: the hue is int(360 * i / tracked_count), the Python
truncation of the claimed exact value): the identifier at ordinal position i
of the sampling draw order is assigned the color with hue
int(360 * i / tracked_count), saturation 70 and lightness 50; the color
depends only on i and the tracked count, so equal draw orders (and more
generally equal lengths at equal positions) give identical colors. -/
theorem c6_draw_order_colors :
    (∀ (tracked : List Int) (i : Nat) (hi : i < tracked.length), tracked.Nodup →
       dictGet (particle_colors tracked) (tracked.get ⟨i, hi⟩) =
         some ⟨(hueOf tracked.length i : Nat), 70, 50⟩) ∧
    (∀ (t1 t2 : List Int) (i : Nat) (h1 : i < t1.length) (h2 : i < t2.length),
       t1.Nodup → t2.Nodup → t1.length = t2.length →
       dictGet (particle_colors t1) (t1.get ⟨i, h1⟩) =
         dictGet (particle_colors t2) (t2.get ⟨i, h2⟩)) := by
  have main : ∀ (tracked : List Int) (i : Nat) (hi : i < tracked.length), tracked.Nodup →
      dictGet (particle_colors tracked) (tracked.get ⟨i, hi⟩) =
        some ⟨(hueOf tracked.length i : Nat), 70, 50⟩ := by
    intro tracked i hi hnd
    have hlen : tracked.length = (trackingColors tracked.length).length := by
      simp [trackingColors]
    rw [particle_colors, dictGet_zip tracked (trackingColors tracked.length) i hnd hlen hi]
    rw [trackingColors, List.get?_map]
    rw [List.get?_range hi]
    rfl
  refine ⟨main, ?_⟩
  intro t1 t2 i h1 h2 hnd1 hnd2 hlen
  rw [main t1 i h1 hnd1, main t2 i h2 hnd2, hlen]

/-- Witness for C6 at a concrete draw. -/
theorem c6_draw_order_colors_witness :
    dictGet (particle_colors [5, 7]) (([5, 7] : List Int).get ⟨0, by decide⟩) =
      some ⟨(hueOf ([5, 7] : List Int).length 0 : Nat), 70, 50⟩ :=
  c6_draw_order_colors.1 [5, 7] 0 (by decide) (by decide)

theorem foldl_max_bounds :
    ∀ (t : List ℚ) (a : ℚ), a ≤ t.foldl max a ∧ ∀ b ∈ t, b ≤ t.foldl max a := by
  intro t
  induction t with
  | nil => intro a; exact ⟨le_refl a, by simp⟩
  | cons c t ih =>
    intro a
    have h := ih (max a c)
    simp only [List.foldl_cons]
    constructor
    · exact le_trans (le_max_left a c) h.1
    · intro b hb
      rcases List.mem_cons.mp hb with hbc | hbt
      · rw [hbc]
        exact le_trans (le_max_right a c) h.1
      · exact h.2 b hbt

theorem foldl_max_mem :
    ∀ (t : List ℚ) (a : ℚ), t.foldl max a = a ∨ t.foldl max a ∈ t := by
  intro t
  induction t with
  | nil => intro a; exact Or.inl rfl
  | cons c t ih =>
    intro a
    simp only [List.foldl_cons]
    rcases ih (max a c) with h | h
    · rcases max_cases a c with ⟨he, -⟩ | ⟨he, -⟩
      · exact Or.inl (h.trans he)
      · refine Or.inr ?_
        rw [h, he]
        exact List.mem_cons_self c t
    · exact Or.inr (List.mem_cons_of_mem c h)

theorem pdMax_spec (l : List ℚ) (m : ℚ) (hm : pdMax l = some m) :
    m ∈ l ∧ ∀ a ∈ l, a ≤ m := by
  match l with
  | [] => exact absurd hm (by simp [pdMax])
  | a :: t =>
    have hmv : m = t.foldl max a := by
      have h2 : some (t.foldl max a) = some m := by
        rw [← hm]
        rfl
      exact (Option.some_inj.mp h2).symm
    subst hmv
    constructor
    · rcases foldl_max_mem t a with h | h
      · rw [h]
        exact List.mem_cons_self a t
      · exact List.mem_cons_of_mem a h
    · intro b hb
      rcases List.mem_cons.mp hb with hba | hbt
      · exact hba ▸ (foldl_max_bounds t a).1
      · exact (foldl_max_bounds t a).2 b hbt

/-- Claim C5 counterexample: the claim asserts the data-derived radius of the
DimensionEstimator equals 1.1 * max(|x|, |y|), citing both
src/generate_mp4.py and src/generate_video.py; but the generate_video variant
computes 1.1 * sqrt(max(x^2 + y^2)).  At the single row (x, y) = (3, 4) the
squared generate_video radius is 121/4 while the claimed radius is 22/5,
whose square is 484/25, so the nonnegative generate_video radius differs from
the claimed one. -/
theorem c5_counterexample :
    wallVideoSq [⟨0, 3, 4, 0, 0, 0, 0, 0⟩] = some (121 / 4) ∧
    wall_mp4 ParamSource.absent (pd_DataFrame [⟨0, 3, 4, 0, 0, 0, 0, 0⟩]) =
      Except.ok (some (22 / 5)) ∧
    (121 / 4 : ℚ) ≠ (22 / 5) ^ 2 := by
  refine ⟨?_, ?_, by norm_num⟩
  · norm_num [wallVideoSq, pdMax]
  · norm_num [wall_mp4, read_parameters, pd_DataFrame, dfColumn, pdMax, optMax]

/-- Claim C5 (amended to the src/generate_mp4.py estimator, which the claim
correctly describes; the src/generate_video.py variant instead derives the
radius from the maximal radial distance sqrt(x^2 + y^2)): whenever the
parameter source is absent, its first line has fewer than 8 tab-separated
fields, or field 6 or 7 fails float parsing, read_parameters yields None
without failing the run, and the fallback radius is 1.1 times the maximum of
max(|x|, |y|) over every particle row of the trajectory. -/
theorem c5_fallback_radius :
    read_parameters ParamSource.absent = none ∧
    (∀ fields : List (Option ℚ), fields.length < 8 →
        read_parameters (ParamSource.present fields) = none) ∧
    (∀ fields : List (Option ℚ), fields[6]? = some none →
        read_parameters (ParamSource.present fields) = none) ∧
    (∀ fields : List (Option ℚ), fields[7]? = some none →
        read_parameters (ParamSource.present fields) = none) ∧
    (∀ (src : ParamSource) (df : List Row), read_parameters src = none → df ≠ [] →
        ∃ m, wall_mp4 src (pd_DataFrame df) = Except.ok (some (m * (11 / 10))) ∧
          (∀ r ∈ df, max |r.x| |r.y| ≤ m) ∧ (∃ r ∈ df, max |r.x| |r.y| = m)) := by
  refine ⟨rfl, ?_, ?_, ?_, ?_⟩
  · intro fields hlen
    have h7 : fields[7]? = none := List.getElem?_eq_none (by omega)
    cases h6 : fields[6]? with
    | none => simp [read_parameters, h6]
    | some f6 =>
      cases f6 with
      | none => simp [read_parameters, h6]
      | some w => simp [read_parameters, h6, h7]
  · intro fields h6
    simp [read_parameters, h6]
  · intro fields h7
    cases h6 : fields[6]? with
    | none => simp [read_parameters, h6]
    | some f6 =>
      cases f6 with
      | none => simp [read_parameters, h6]
      | some w => simp [read_parameters, h6, h7]
  · intro src df hnone hne
    match df, hne with
    | r0 :: rest, _ =>
      have hx : pdMax ((r0 :: rest).map (fun r => |r.x|)) =
          some ((rest.map (fun r => |r.x|)).foldl max |r0.x|) := by
        simp [pdMax]
      have hy : pdMax ((r0 :: rest).map (fun r => |r.y|)) =
          some ((rest.map (fun r => |r.y|)).foldl max |r0.y|) := by
        simp [pdMax]
      obtain ⟨hmx_mem, hmx_le⟩ := pdMax_spec _ _ hx
      obtain ⟨hmy_mem, hmy_le⟩ := pdMax_spec _ _ hy
      set mx := (rest.map (fun r => |r.x|)).foldl max |r0.x| with hmx_def
      set my := (rest.map (fun r => |r.y|)).foldl max |r0.y| with hmy_def
      refine ⟨max mx my, ?_, ?_, ?_⟩
      · show wall_mp4 src (pd_DataFrame (r0 :: rest)) =
          Except.ok (some (max mx my * (11 / 10)))
        have hcol : ∀ f : Row → ℚ, dfColumn (pd_DataFrame (r0 :: rest)) f =
            Except.ok ((r0 :: rest).map f) := by
          intro f
          rfl
        rw [wall_mp4, hnone]
        simp only [hcol, hx, hy, optMax]
      · intro r hr
        have h1 : |r.x| ≤ mx := hmx_le |r.x| (List.mem_map.mpr ⟨r, hr, rfl⟩)
        have h2 : |r.y| ≤ my := hmy_le |r.y| (List.mem_map.mpr ⟨r, hr, rfl⟩)
        exact max_le (le_trans h1 (le_max_left mx my)) (le_trans h2 (le_max_right mx my))
      · obtain ⟨r1, hr1, hr1x⟩ := List.mem_map.mp hmx_mem
        obtain ⟨r2, hr2, hr2y⟩ := List.mem_map.mp hmy_mem
        rcases le_total my mx with hcase | hcase
        · refine ⟨r1, hr1, ?_⟩
          have hy1 : |r1.y| ≤ mx :=
            le_trans (hmy_le |r1.y| (List.mem_map.mpr ⟨r1, hr1, rfl⟩)) hcase
          rw [max_eq_left hcase]
          rw [← hr1x] at hy1 ⊢
          exact max_eq_left hy1
        · refine ⟨r2, hr2, ?_⟩
          have hx2 : |r2.x| ≤ my :=
            le_trans (hmx_le |r2.x| (List.mem_map.mpr ⟨r2, hr2, rfl⟩)) hcase
          rw [max_eq_right hcase]
          rw [← hr2y] at hx2 ⊢
          exact max_eq_right hx2

/-- Witness for C5: a 5-field parameter line falls back, and on a concrete
one-row trajectory the fallback radius is max(|x|, |y|) * 1.1. -/
theorem c5_fallback_radius_witness :
    read_parameters (ParamSource.present [none, none, none, none, none]) = none ∧
    (∃ m, wall_mp4 ParamSource.absent (pd_DataFrame [⟨0, 3, 4, 0, 0, 0, 0, 0⟩]) =
        Except.ok (some (m * (11 / 10))) ∧
      (∀ r ∈ [(⟨0, 3, 4, 0, 0, 0, 0, 0⟩ : Row)], max |r.x| |r.y| ≤ m) ∧
      (∃ r ∈ [(⟨0, 3, 4, 0, 0, 0, 0, 0⟩ : Row)], max |r.x| |r.y| = m)) :=
  ⟨c5_fallback_radius.2.1 [none, none, none, none, none] (by decide),
   c5_fallback_radius.2.2.2.2 ParamSource.absent [⟨0, 3, 4, 0, 0, 0, 0, 0⟩] rfl
     (by decide)⟩

/-- Claim C9 counterexample: an empty trajectory read from a header-only CSV
(columns present, zero rows) makes the estimator of src/generate_mp4.py main
succeed with NaN geometry — it neither fails nor signals EmptyTrajectory,
refuting the claimed failure on empty trajectories; and the empty trajectory
realized through the binary reader (pd.DataFrame of an empty row list, no
columns) fails with a KeyError on the column access, not with any
EmptyTrajectory signal. -/
theorem c9_counterexample :
    estimate_mp4 ParamSource.absent (PyDataFrame.mk true []) =
      Except.ok ⟨none, none, none⟩ ∧
    estimate_mp4 ParamSource.absent (pd_DataFrame []) =
      Except.error KeyError.keyError := by
  constructor
  · rfl
  · rfl

/-- Claim C9 (amended): the estimation block has no EmptyTrajectory signal.
For every non-empty trajectory it returns a fully defined Geometry without
failing; on an empty trajectory its behavior depends on the realization:
read from the binary path, the empty DataFrame has no columns and the column
accesses of lines 362/365 raise KeyError, while read from a header-only CSV
(columns present) it succeeds with NaN bounds. -/
theorem c9_estimator_total :
    (∀ (src : ParamSource) (rows : List Row), rows ≠ [] →
        ∃ g, estimate_mp4 src (pd_DataFrame rows) = Except.ok g ∧
          g.radius.isSome ∧ g.height_min.isSome ∧ g.height_max.isSome) ∧
    (∀ src : ParamSource,
        estimate_mp4 src (pd_DataFrame []) = Except.error KeyError.keyError) ∧
    (∀ src : ParamSource, ∃ g,
        estimate_mp4 src (PyDataFrame.mk true []) = Except.ok g) := by
  refine ⟨?_, ?_, ?_⟩
  · intro src rows hne
    match rows, hne with
    | r0 :: rest, _ =>
      have hcol : ∀ f : Row → ℚ, dfColumn (pd_DataFrame (r0 :: rest)) f =
          Except.ok ((r0 :: rest).map f) := by
        intro f
        rfl
      cases hp : read_parameters src with
      | some wh =>
        refine ⟨⟨some wh.1, pdMin ((r0 :: rest).map (fun r => r.z)),
          pdMax ((r0 :: rest).map (fun r => r.z))⟩, ?_, by simp, ?_, ?_⟩
        · simp [estimate_mp4, wall_mp4, hp, hcol]
        · simp [pdMin]
        · simp [pdMax]
      | none =>
        refine ⟨⟨some ((max ((rest.map (fun r => |r.x|)).foldl max |r0.x|)
            ((rest.map (fun r => |r.y|)).foldl max |r0.y|)) * (11 / 10)),
          pdMin ((r0 :: rest).map (fun r => r.z)),
          pdMax ((r0 :: rest).map (fun r => r.z))⟩, ?_, by simp, ?_, ?_⟩
        · simp [estimate_mp4, wall_mp4, hp, hcol, pdMax, optMax]
        · simp [pdMin]
        · simp [pdMax]
  · intro src
    cases hp : read_parameters src with
    | some wh => rw [estimate_mp4, wall_mp4, hp]; rfl
    | none => rw [estimate_mp4, wall_mp4, hp]; rfl
  · intro src
    cases hp : read_parameters src with
    | some wh =>
      refine ⟨⟨some wh.1, none, none⟩, ?_⟩
      rw [estimate_mp4, wall_mp4, hp]
      rfl
    | none =>
      refine ⟨⟨none, none, none⟩, ?_⟩
      rw [estimate_mp4, wall_mp4, hp]
      rfl

/-- Witness for C9 on a concrete nonempty trajectory. -/
theorem c9_estimator_total_witness :
    ∃ g, estimate_mp4 ParamSource.absent (pd_DataFrame [⟨0, 1, 2, 3, 0, 0, 0, 0⟩]) =
        Except.ok g ∧
      g.radius.isSome ∧ g.height_min.isSome ∧ g.height_max.isSome :=
  c9_estimator_total.1 ParamSource.absent [⟨0, 1, 2, 3, 0, 0, 0, 0⟩] (by decide)

theorem dropWhile_append_of_all {p : Char → Bool} :
    ∀ (pre l : List Char), (∀ c ∈ pre, p c = true) →
      (pre ++ l).dropWhile p = l.dropWhile p := by
  intro pre
  induction pre with
  | nil => intro l h; rfl
  | cons a t ih =>
    intro l h
    have ha : p a = true := h a (List.mem_cons_self a t)
    rw [List.cons_append, List.dropWhile_cons_of_pos ha]
    exact ih l (fun c hc => h c (List.mem_cons_of_mem a hc))

theorem takeWhile_append_of_all {p : Char → Bool} :
    ∀ (run l : List Char), (∀ c ∈ run, p c = true) →
      (run ++ l).takeWhile p = run ++ l.takeWhile p := by
  intro run
  induction run with
  | nil => intro l h; rfl
  | cons a t ih =>
    intro l h
    have ha : p a = true := h a (List.mem_cons_self a t)
    rw [List.cons_append, List.takeWhile_cons_of_pos ha, ih l
      (fun c hc => h c (List.mem_cons_of_mem a hc))]
    rfl

/-- Claim C7 counterexample: on the label a1b2 the code extracts the FIRST
numeric substring 1 (regex (\d+) with str.extract takes the first match),
while the numeric suffix the claim demands is 2. -/
theorem c7_counterexample :
    extract_particles [['a', '1', 'b', '2']] = some [1] ∧
    numericSuffix ['a', '1', 'b', '2'] = some 2 ∧ (1 : Nat) ≠ 2 :=
  ⟨by decide, by decide, by decide⟩

/-- Claim C7 (amended): for a non-numeric identifier column the code extracts
the FIRST maximal numeric substring of each label (not the suffix); if some
label contains no digit at all, the whole conversion fails (pandas astype on
the NaN raises one error for the column; the offending row is not named),
and when every label contains a digit the extraction succeeds for all rows. -/
theorem c7_first_digit_run :
    (∀ labels : List (List Char), (∃ l ∈ labels, ∀ c ∈ l, c.isDigit = false) →
        extract_particles labels = none) ∧
    (∀ labels : List (List Char), (∀ l ∈ labels, ∃ c ∈ l, c.isDigit = true) →
        ∃ ids, extract_particles labels = some ids ∧ ids.length = labels.length) ∧
    (∀ (pre run rest : List Char), (∀ c ∈ pre, c.isDigit = false) →
        run ≠ [] → (∀ c ∈ run, c.isDigit = true) →
        (∀ c0, rest.head? = some c0 → c0.isDigit = false) →
        firstDigitRun (pre ++ run ++ rest) = some (natOfDigits run)) := by
  have hnodig : ∀ l : List Char, (∀ c ∈ l, c.isDigit = false) → firstDigitRun l = none := by
    intro l hl
    have hd : l.dropWhile (fun c => !c.isDigit) = [] := by
      rw [List.dropWhile_eq_nil_iff]
      intro x hx
      simp [hl x hx]
    simp [firstDigitRun, hd]
  have hhasdig : ∀ l : List Char, (∃ c ∈ l, c.isDigit = true) →
      ∃ n, firstDigitRun l = some n := by
    intro l hl
    cases hd : l.dropWhile (fun c => !c.isDigit) with
    | nil =>
      obtain ⟨c, hc, hcd⟩ := hl
      have := (List.dropWhile_eq_nil_iff.mp hd) c hc
      simp [hcd] at this
    | cons d ds =>
      refine ⟨natOfDigits ((d :: ds).takeWhile Char.isDigit), ?_⟩
      simp [firstDigitRun, hd]
  refine ⟨?_, ?_, ?_⟩
  · intro labels
    induction labels with
    | nil =>
      intro h
      simp at h
    | cons lab rest ih =>
      intro h
      rcases h with ⟨l, hl, hnod⟩
      rcases List.mem_cons.mp hl with hll | hlr
      · have hfirst : firstDigitRun lab = none := hnodig lab (hll ▸ hnod)
        cases hrec : extract_particles rest with
        | none => simp [extract_particles, hfirst, hrec]
        | some t => simp [extract_particles, hfirst, hrec]
      · have hrec : extract_particles rest = none := ih ⟨l, hlr, hnod⟩
        cases hfirst : firstDigitRun lab with
        | none => simp [extract_particles, hfirst, hrec]
        | some n => simp [extract_particles, hfirst, hrec]
  · intro labels
    induction labels with
    | nil =>
      intro h
      exact ⟨[], rfl, rfl⟩
    | cons lab rest ih =>
      intro h
      obtain ⟨n, hn⟩ := hhasdig lab (h lab (List.mem_cons_self lab rest))
      obtain ⟨ids, hids, hlen⟩ := ih (fun l hl => h l (List.mem_cons_of_mem lab hl))
      refine ⟨n :: ids, ?_, by simp [hlen]⟩
      simp [extract_particles, hn, hids]
  · intro pre run rest hpre hne hrun hrest
    match run, hne with
    | d :: run', _ =>
      have hd : d.isDigit = true := hrun d (List.mem_cons_self d run')
      have hdrop : (pre ++ (d :: (run' ++ rest))).dropWhile (fun c => !c.isDigit) =
          d :: (run' ++ rest) := by
        rw [dropWhile_append_of_all pre _ (fun c hc => by simp [hpre c hc])]
        rw [List.dropWhile_cons_of_neg (by simp [hd])]
      have htake : (d :: (run' ++ rest)).takeWhile Char.isDigit = d :: run' := by
        rw [List.takeWhile_cons_of_pos hd]
        rw [takeWhile_append_of_all run' rest
          (fun c hc => hrun c (List.mem_cons_of_mem d hc))]
        have hrtake : rest.takeWhile Char.isDigit = [] := by
          cases rest with
          | nil => rfl
          | cons c0 t =>
            have := hrest c0 rfl
            rw [List.takeWhile_cons_of_neg (by simp [this])]
        rw [hrtake, List.append_nil]
      simp [firstDigitRun, hdrop, htake]

/-- Witness for C7 at a concrete alphanumeric label. -/
theorem c7_first_digit_run_witness :
    firstDigitRun (['p'] ++ ['1', '2'] ++ []) = some (natOfDigits ['1', '2']) :=
  c7_first_digit_run.2.2 ['p'] ['1', '2'] [] (by decide) (by decide) (by decide)
    (by intro c0 h; simp at h)

theorem mem_pdUniqueGo :
    ∀ (l seen : List ℚ) (x : ℚ), x ∈ pdUniqueGo seen l ↔ (x ∈ l ∧ x ∉ seen) := by
  intro l
  induction l with
  | nil =>
    intro seen x
    simp [pdUniqueGo]
  | cons a t ih =>
    intro seen x
    by_cases ha : a ∈ seen
    · rw [pdUniqueGo, if_pos ha, ih]
      constructor
      · rintro ⟨hxt, hxs⟩
        exact ⟨List.mem_cons_of_mem a hxt, hxs⟩
      · rintro ⟨hx, hxs⟩
        rcases List.mem_cons.mp hx with hxa | hxt
        · exact absurd (hxa ▸ ha) hxs
        · exact ⟨hxt, hxs⟩
    · rw [pdUniqueGo, if_neg ha]
      constructor
      · intro hx
        rcases List.mem_cons.mp hx with hxa | hxt
        · exact ⟨hxa ▸ List.mem_cons_self a t, hxa ▸ ha⟩
        · obtain ⟨hxt2, hxs2⟩ := (ih (a :: seen) x).mp hxt
          exact ⟨List.mem_cons_of_mem a hxt2,
            fun hxs => hxs2 (List.mem_cons_of_mem a hxs)⟩
      · rintro ⟨hx, hxs⟩
        rcases List.mem_cons.mp hx with hxa | hxt
        · exact hxa ▸ List.mem_cons_self a _
        · by_cases hxa : x = a
          · exact hxa ▸ List.mem_cons_self a _
          · refine List.mem_cons_of_mem a ((ih (a :: seen) x).mpr ⟨hxt, ?_⟩)
            intro hmem
            rcases List.mem_cons.mp hmem with h1 | h1
            · exact hxa h1
            · exact hxs h1

theorem nodup_pdUniqueGo : ∀ (l seen : List ℚ), (pdUniqueGo seen l).Nodup := by
  intro l
  induction l with
  | nil =>
    intro seen
    simp [pdUniqueGo]
  | cons a t ih =>
    intro seen
    by_cases ha : a ∈ seen
    · rw [pdUniqueGo, if_pos ha]
      exact ih seen
    · rw [pdUniqueGo, if_neg ha]
      refine List.nodup_cons.mpr ⟨?_, ih (a :: seen)⟩
      intro hmem
      exact ((mem_pdUniqueGo t (a :: seen) a).mp hmem).2 (List.mem_cons_self a seen)

theorem mem_pdUnique (l : List ℚ) (x : ℚ) : x ∈ pdUnique l ↔ x ∈ l := by
  rw [pdUnique, mem_pdUniqueGo]
  simp

theorem nodup_pdUnique (l : List ℚ) : (pdUnique l).Nodup := nodup_pdUniqueGo l []

theorem sortedUniqueTimes_sorted (col : List ℚ) :
    (List.insertionSort (fun a b => a ≤ b) (pdUnique col)).Sorted
      (fun a b => a < b) := by
  have hs : (List.insertionSort (fun a b => a ≤ b) (pdUnique col)).Sorted
      (fun a b => a ≤ b) :=
    List.sorted_insertionSort _ _
  have hn : (List.insertionSort (fun a b => a ≤ b) (pdUnique col)).Nodup :=
    ((List.perm_insertionSort _ _).nodup_iff).mpr (nodup_pdUnique _)
  exact List.Pairwise.imp₂ (fun a b hle hne => lt_of_le_of_ne hle hne) hs hn

theorem mem_sortedUniqueTimes (col : List ℚ) (t : ℚ) :
    t ∈ List.insertionSort (fun a b => a ≤ b) (pdUnique col) ↔ t ∈ col := by
  rw [List.mem_insertionSort, mem_pdUnique]

theorem frameArtifacts_ok (rows : List Row) (hne : rows ≠ []) :
    frameArtifacts (pd_DataFrame rows) = Except.ok
      ((List.insertionSort (fun a b => a ≤ b)
        (pdUnique (rows.map (fun r => r.time)))).enum) := by
  have hc : dfColumn (pd_DataFrame rows) (fun r => r.time) =
      Except.ok (rows.map (fun r => r.time)) := by
    match rows, hne with
    | r0 :: rest, _ => rfl
  rw [frameArtifacts, videoTimesteps, hc]

theorem frameArtifacts_keyError (rows : List Row) (he : rows = []) :
    frameArtifacts (pd_DataFrame rows) = Except.error KeyError.keyError := by
  subst he
  rfl

theorem trajToDf_eq_nil (tr : Traj) (h : tr.particle_count = 0 ∨ tr.frames = []) :
    trajToDf tr = [] := by
  rcases h with h0 | h0
  · rw [trajToDf, h0]
    simp
  · rw [trajToDf, h0]
    rfl

theorem mem_trajToDf_time (tr : Traj) (hnp : 1 ≤ tr.particle_count) (t : ℚ) :
    t ∈ (trajToDf tr).map (fun r => r.time) ↔
      t ∈ tr.frames.map (fun fr => fr.timestep) := by
  constructor
  · intro h
    obtain ⟨r, hr, ht⟩ := List.mem_map.mp h
    obtain ⟨sub, hsub, hrsub⟩ := List.mem_flatten.mp hr
    obtain ⟨fr, hfr, hfrsub⟩ := List.mem_map.mp hsub
    rw [← hfrsub] at hrsub
    obtain ⟨pid, hpid, hrow⟩ := List.mem_map.mp hrsub
    rw [← hrow] at ht
    exact List.mem_map.mpr ⟨fr, hfr, ht⟩
  · intro h
    obtain ⟨fr, hfr, ht⟩ := List.mem_map.mp h
    refine List.mem_map.mpr
      ⟨⟨0, fr.xs.getD 0 0, fr.ys.getD 0 0, fr.zs.getD 0 0, fr.exs.getD 0 0,
        fr.eys.getD 0 0, fr.ezs.getD 0 0, fr.timestep⟩, ?_, ht⟩
    apply List.mem_flatten.mpr
    refine ⟨(List.range tr.particle_count).map (fun pid =>
      ⟨pid, fr.xs.getD pid 0, fr.ys.getD pid 0, fr.zs.getD pid 0,
       fr.exs.getD pid 0, fr.eys.getD pid 0, fr.ezs.getD pid 0, fr.timestep⟩),
      List.mem_map.mpr ⟨fr, hfr, rfl⟩, ?_⟩
    exact List.mem_map.mpr ⟨0, List.mem_range.mpr (by omega), rfl⟩

theorem trajToDf_ne_nil (tr : Traj) (hnp : 1 ≤ tr.particle_count)
    (hfr : tr.frames ≠ []) : trajToDf tr ≠ [] := by
  intro h0
  cases hE : tr.frames with
  | nil => exact hfr hE
  | cons fr0 rest =>
    have hmem : fr0.timestep ∈ tr.frames.map (fun fr => fr.timestep) := by
      rw [hE]
      exact List.mem_map.mpr ⟨fr0, List.mem_cons_self fr0 rest, rfl⟩
    have hdf := (mem_trajToDf_time tr hnp fr0.timestep).mpr hmem
    rw [h0] at hdf
    simp at hdf

/-- Claim C1 counterexample: a trajectory with particle_count = 0 and one
frame (timestep 7) flattens to an empty row list, so pd.DataFrame gives a
column-less empty DataFrame and the df[time] access of the sequencer raises
KeyError — the program crashes instead of producing the artifact for the one
distinct timestep 7, refuting the claimed one-artifact-per-distinct-timestep
correspondence. -/
theorem c1_counterexample :
    frameArtifacts (pd_DataFrame (trajToDf ⟨0, [⟨7, [], [], [], [], [], []⟩]⟩)) =
      Except.error KeyError.keyError ∧
    (Traj.mk 0 [⟨7, [], [], [], [], [], []⟩]).frames.map (fun fr => fr.timestep)
      = [7] := by
  constructor
  · rfl
  · rfl

/-- Claim C1 (amended to trajectories with at least one particle and at least
one frame, since the code derives the timestep set from the per-particle
DataFrame rows and crashes with KeyError on the column-less empty DataFrame
otherwise): the sequencing succeeds, the artifact indices are the dense range
0..k-1 in ascending timestep order, the artifact timesteps are strictly
increasing (hence each distinct timestep appears exactly once) and are
exactly the timesteps occurring in the frames, while the trajectory frame
sequence itself is untouched; with zero particles or zero frames the program
instead fails with KeyError; and on the concrete 3-particle trajectory with
file-order timesteps [5, 3] the two artifacts are (0, 3) and (1, 5). -/
theorem c1_dense_artifacts :
    (∀ tr : Traj, 1 ≤ tr.particle_count → tr.frames ≠ [] →
      ∃ arts, frameArtifacts (pd_DataFrame (trajToDf tr)) = Except.ok arts ∧
        arts.map Prod.fst = List.range arts.length ∧
        (arts.map Prod.snd).Sorted (fun a b => a < b) ∧
        (∀ t : ℚ, t ∈ arts.map Prod.snd ↔
          t ∈ tr.frames.map (fun fr => fr.timestep))) ∧
    (∀ tr : Traj, tr.particle_count = 0 ∨ tr.frames = [] →
      frameArtifacts (pd_DataFrame (trajToDf tr)) =
        Except.error KeyError.keyError) ∧
    frameArtifacts (pd_DataFrame (trajToDf ⟨3, [⟨5, [0, 0, 0], [0, 0, 0],
        [0, 0, 0], [0, 0, 0], [0, 0, 0], [0, 0, 0]⟩,
      ⟨3, [0, 0, 0], [0, 0, 0], [0, 0, 0], [0, 0, 0], [0, 0, 0],
        [0, 0, 0]⟩]⟩)) = Except.ok [(0, 3), (1, 5)] ∧
    (Traj.mk 3 [⟨5, [0, 0, 0], [0, 0, 0], [0, 0, 0], [0, 0, 0], [0, 0, 0],
        [0, 0, 0]⟩,
      ⟨3, [0, 0, 0], [0, 0, 0], [0, 0, 0], [0, 0, 0], [0, 0, 0],
        [0, 0, 0]⟩]).frames.map (fun fr => fr.timestep) = [5, 3] := by
  refine ⟨?_, ?_, by decide, by decide⟩
  · intro tr hnp hfr
    have hne := trajToDf_ne_nil tr hnp hfr
    refine ⟨_, frameArtifacts_ok (trajToDf tr) hne, ?_, ?_, ?_⟩
    · rw [List.enum_eq_enumFrom, List.enumFrom_map_fst, List.range_eq_range']
      simp [List.enumFrom_length]
    · rw [List.enum_eq_enumFrom, List.enumFrom_map_snd]
      exact sortedUniqueTimes_sorted _
    · intro t
      rw [List.enum_eq_enumFrom, List.enumFrom_map_snd, mem_sortedUniqueTimes,
        mem_trajToDf_time tr hnp]
  · intro tr h
    exact frameArtifacts_keyError _ (trajToDf_eq_nil tr h)

/-- Witness for C1 applying the amended theorem at a one-particle trajectory. -/
theorem c1_dense_artifacts_witness :
    ∃ arts, frameArtifacts (pd_DataFrame (trajToDf ⟨1, [⟨4, [0], [0], [0], [0],
        [0], [0]⟩]⟩)) = Except.ok arts ∧
      arts.map Prod.fst = List.range arts.length ∧
      (arts.map Prod.snd).Sorted (fun a b => a < b) ∧
      (∀ t : ℚ, t ∈ arts.map Prod.snd ↔
        t ∈ (Traj.mk 1 [⟨4, [0], [0], [0], [0], [0],
          [0]⟩]).frames.map (fun fr => fr.timestep)) :=
  c1_dense_artifacts.1 ⟨1, [⟨4, [0], [0], [0], [0], [0], [0]⟩]⟩ (by decide)
    (by decide)

theorem getItem_ok {f : Nat} {a : ArrKind} {l : List ℚ} {i : Nat} {v : ℚ}
    (h : getItem f a l i = Except.ok v) : i < l.length := by
  by_contra hlt
  have hn : l.get? i = none := List.get?_eq_none.mpr (by omega)
  rw [getItem, hn] at h
  simp at h

theorem rowsFor_ok :
    ∀ (pids : List Nat) (f : Nat) (t : ℚ) (xs ys zs exs eys ezs : List ℚ)
      (rs : List Row),
      rowsFor f t xs ys zs exs eys ezs pids = Except.ok rs →
      rs.length = pids.length ∧
      ∀ pid ∈ pids, pid < xs.length ∧ pid < ys.length ∧ pid < zs.length ∧
        pid < exs.length ∧ pid < eys.length ∧ pid < ezs.length := by
  intro pids
  induction pids with
  | nil =>
    intro f t xs ys zs exs eys ezs rs h
    rw [rowsFor] at h
    rw [Except.ok.injEq] at h
    subst h
    exact ⟨rfl, by simp⟩
  | cons pid rest ih =>
    intro f t xs ys zs exs eys ezs rs h
    rw [rowsFor] at h
    cases hx : getItem f ArrKind.x xs pid with
    | error e => simp [hx] at h
    | ok xv =>
    simp only [hx] at h
    cases hy : getItem f ArrKind.y ys pid with
    | error e => simp [hy] at h
    | ok yv =>
    simp only [hy] at h
    cases hz : getItem f ArrKind.z zs pid with
    | error e => simp [hz] at h
    | ok zv =>
    simp only [hz] at h
    cases hex : getItem f ArrKind.ex exs pid with
    | error e => simp [hex] at h
    | ok exv =>
    simp only [hex] at h
    cases hey : getItem f ArrKind.ey eys pid with
    | error e => simp [hey] at h
    | ok eyv =>
    simp only [hey] at h
    cases hez : getItem f ArrKind.ez ezs pid with
    | error e => simp [hez] at h
    | ok ezv =>
    simp only [hez] at h
    cases hrec : rowsFor f t xs ys zs exs eys ezs rest with
    | error e => simp [hrec] at h
    | ok rs2 =>
    simp only [hrec, Except.ok.injEq] at h
    subst h
    obtain ⟨hlen, hall⟩ := ih f t xs ys zs exs eys ezs rs2 hrec
    refine ⟨by simp [hlen], ?_⟩
    intro q hq
    rcases List.mem_cons.mp hq with hq1 | hq2
    · subst hq1
      exact ⟨getItem_ok hx, getItem_ok hy, getItem_ok hz, getItem_ok hex,
        getItem_ok hey, getItem_ok hez⟩
    · exact hall q hq2

theorem readFrames_ok :
    ∀ (nf np f : Nat) (s : List ℚ) (rows : List Row),
      readFrames np f nf s = Except.ok rows →
      rows.length = nf * np ∧ nf * (1 + 6 * np) ≤ s.length := by
  intro nf
  induction nf with
  | zero =>
    intro np f s rows h
    rw [readFrames, Except.ok.injEq] at h
    subst h
    simp
  | succ nf ih =>
    intro np f s rows h
    simp only [readFrames] at h
    cases ht : getItem f ArrKind.timestep s 0 with
    | error e => simp [ht] at h
    | ok t =>
    simp only [ht] at h
    split at h
    · simp at h
    · rename_i rows1 heq1
      split at h
      · simp at h
      · rename_i rest2 heq2
        rw [Except.ok.injEq] at h
        subst h
        obtain ⟨hlen1, hbound⟩ := rowsFor_ok _ _ _ _ _ _ _ _ _ _ heq1
        obtain ⟨hlen2, hrec⟩ := ih np (f + 1) _ _ heq2
        have hs0 : 0 < s.length := getItem_ok ht
        rw [List.length_range] at hlen1
        simp only [List.length_drop] at hrec
        constructor
        · rw [List.length_append, hlen1, hlen2, Nat.succ_mul]
          exact Nat.add_comm np (nf * np)
        · rw [Nat.succ_mul]
          rcases Nat.eq_zero_or_pos np with hnp | hnp
          · subst hnp
            generalize hB : nf * (1 + 6 * 0) = B at hrec ⊢
            omega
          · have hmem : np - 1 ∈ List.range np := List.mem_range.mpr (by omega)
            have hez := (hbound _ hmem).2.2.2.2.2
            simp only [List.length_take, List.length_drop] at hez
            generalize hB : nf * (1 + 6 * np) = B at hrec ⊢
            omega

theorem toCount_natCast (n : Nat) : toCount ((n : ℚ)) = n := by
  rw [toCount, rat_floor_eq_int_floor, Int.floor_natCast]
  simp

theorem read_binary_simulation_cons (np nf : Nat) (rest : List ℚ) :
    read_binary_simulation ((np : ℚ) :: (nf : ℚ) :: rest) =
      readFrames np 0 nf rest := by
  rw [read_binary_simulation]
  simp [getItem, toCount_natCast]

/-- Claim C2: a binary stream that ends before the declared number of frame
records and per-frame array items have been delivered always makes
read_binary_simulation fail (np.fromfile under-delivers, and the subsequent
array index access raises, here tagged with the frame and array it hits), and
a successful read always carries exactly frame_count x particle_count rows
read from a stream of at least the declared size — never a partially filled
trajectory; at the concrete header particle_count = 50, frame_count = 1 with
only 30 items of the first array present, the read fails on the y array of
frame 0. -/
theorem c2_truncated_read :
    (∀ (np nf : Nat) (rest : List ℚ), rest.length < nf * (1 + 6 * np) →
        ∃ e, read_binary_simulation ((np : ℚ) :: (nf : ℚ) :: rest) =
          Except.error e) ∧
    (∀ (np nf : Nat) (rest : List ℚ) (rows : List Row),
        read_binary_simulation ((np : ℚ) :: (nf : ℚ) :: rest) = Except.ok rows →
        rows.length = nf * np ∧ nf * (1 + 6 * np) ≤ rest.length) ∧
    read_binary_simulation
        ((50 : ℚ) :: (1 : ℚ) :: (7 : ℚ) :: List.replicate 30 (0 : ℚ)) =
      Except.error (ReadErr.truncated 0 ArrKind.y 0) := by
  refine ⟨?_, ?_, ?_⟩
  · intro np nf rest hshort
    rw [read_binary_simulation_cons]
    cases hres : readFrames np 0 nf rest with
    | error e => exact ⟨e, rfl⟩
    | ok rows =>
      have := (readFrames_ok nf np 0 rest rows hres).2
      omega
  · intro np nf rest rows h
    rw [read_binary_simulation_cons] at h
    exact readFrames_ok nf np 0 rest rows h
  · decide

/-- Witness for C2: a declared one-frame, one-particle stream with no frame
data at all fails. -/
theorem c2_truncated_read_witness :
    ∃ e, read_binary_simulation (((1 : Nat) : ℚ) :: ((1 : Nat) : ℚ) :: ([] : List ℚ)) =
      Except.error e :=
  c2_truncated_read.1 1 1 [] (by decide)

end ActiveParticles
